import Mathlib

/-!
Verification of the resilient session manager: the credential lifecycle
manager from src/examples/nodejs/authentication.js and the two
reconnect/failover loops (single-endpoint and endpoint-pool variants of
connection.js).

Time is modelled as a rational number of seconds, matching the source
expression Date.now() / 1000.  The identity provider is external to the
repository, so the two Cognito calls are passed in as oracle functions;
everything else is translated from the JavaScript source.
-/

namespace Auth

/-- A decoded id token.  In the source the token is a JWT string whose
middle segment, base64-decoded, is a JSON object with the claims
auth_time and exp; we model the token together with those two claims and
keep the rest of the string opaque in body. -/
structure IdToken where
  auth_time : ℚ
  exp : ℚ
  body : String
  deriving DecidableEq

/-- Result of the USER_PASSWORD_AUTH call: response.AuthenticationResult
carries a RefreshToken and an IdToken. -/
structure LoginResult where
  RefreshToken : String
  IdToken : IdToken
  deriving DecidableEq

/-- Result of the REFRESH_TOKEN_AUTH call: response.AuthenticationResult
carries a fresh IdToken (the refresh token itself is not re-issued). -/
structure RefreshResult where
  IdToken : IdToken
  deriving DecidableEq

/-- Errors propagated from the identity provider (network failure, bad
credentials, expired refresh token); the source gives them no structure
so a message string suffices. -/
abbrev AuthErr := String

/-- The closure state of createGetIdToken: the four variables
refreshToken, idToken, authTime, exp, all initialized to null. -/
structure AuthState where
  refreshToken : Option String
  idToken : Option IdToken
  authTime : Option ℚ
  exp : Option ℚ
  deriving DecidableEq

/-- The state at manager construction: every field null. -/
def initialAuthState : AuthState :=
  { refreshToken := none, idToken := none, authTime := none, exp := none }

/-- extractIdTokenClaims: reads the claims of the current idToken and
stores auth_time into authTime and exp into exp.  The source only calls
it with idToken set; on a null idToken we leave the state unchanged. -/
def extractIdTokenClaims (s : AuthState) : AuthState :=
  match s.idToken with
  | none => s
  | some t => { s with authTime := some t.auth_time, exp := some t.exp }

/-- userPasswordAuth: sends InitiateAuth with USER_PASSWORD_AUTH.  On
success it stores the RefreshToken and IdToken from the response and
extracts the claims; on failure the exception propagates before any
assignment runs, so the state is unchanged. -/
def userPasswordAuth (login : String → String → Except AuthErr LoginResult)
    (username password : String) (s : AuthState) :
    AuthState × Except AuthErr Unit :=
  match login username password with
  | .error e => (s, .error e)
  | .ok r =>
      (extractIdTokenClaims
        { s with refreshToken := some r.RefreshToken, idToken := some r.IdToken },
       .ok ())

/-- refreshTokenAuth: sends InitiateAuth with REFRESH_TOKEN_AUTH carrying
the stored refreshToken.  On success it stores the fresh IdToken and
extracts the claims; refreshToken is not assigned.  On failure the state
is unchanged. -/
def refreshTokenAuth (refresh : Option String → Except AuthErr RefreshResult)
    (s : AuthState) : AuthState × Except AuthErr Unit :=
  match refresh s.refreshToken with
  | .error e => (s, .error e)
  | .ok r => (extractIdTokenClaims { s with idToken := some r.IdToken }, .ok ())

/-- Which network traffic a getIdToken call performed. -/
inductive AuthAction
  | noCall
  | login
  | renewal
  deriving DecidableEq

/-- getIdToken: the single public operation.  The branch conditions are
the source conditions with now standing for Date.now() / 1000; the null
values of authTime and exp coerce to 0 in the JavaScript arithmetic,
which Option.getD 0 reproduces.  The result records the action taken,
the closure state after the call (unchanged when the call failed), and
either the returned idToken or the propagated error. -/
def getIdToken (login : String → String → Except AuthErr LoginResult)
    (refresh : Option String → Except AuthErr RefreshResult)
    (username password : String) (now : ℚ) (s : AuthState) :
    AuthAction × AuthState × Except AuthErr (Option IdToken) :=
  if s.idToken = none ∨ now - s.authTime.getD 0 > 3600 then
    match userPasswordAuth login username password s with
    | (s', .error e) => (.login, s', .error e)
    | (s', .ok _) => (.login, s', .ok s'.idToken)
  else if s.exp.getD 0 - now < 120 then
    match refreshTokenAuth refresh s with
    | (s', .error e) => (.renewal, s', .error e)
    | (s', .ok _) => (.renewal, s', .ok s'.idToken)
  else
    (.noCall, s, .ok s.idToken)

end Auth

namespace Conn

/-- Phase of one WebSocket object: created but not yet open, or open. -/
inductive SocketPhase
  | connecting
  | opened
  deriving DecidableEq

/-- Closing the previous transport.  On the very first attempt the ws
variable is still null, so ws.close() raises a TypeError; closing a
live object succeeds. -/
def closeSocket : Option SocketPhase → Except String Unit
  | none => .error "TypeError: ws is null"
  | some _ => .ok ()

/-- The try/catch around ws.close(): whatever closeSocket returns is
discarded, successes and errors alike. -/
def tryClose (w : Option SocketPhase) : Unit :=
  match closeSocket w with
  | .ok _ => ()
  | .error _ => ()

/-- External events delivered by the event loop to one connection:
the watchdog timer fires, the current socket signals open, or a frame
arrives on the socket. -/
inductive ConnEvent
  | timeout
  | wsOpen
  | message (data : String)
  deriving DecidableEq

/-- Observable effects of the loop, recorded in order: an attempt is the
creation of a new socket together with the watchdog duration armed for
it (in seconds; the source passes openTimeout * 1000 milliseconds to
setTimeout), onOpen and onMessage are the application callbacks.  The
endpoint type is a string URL in the single-endpoint variant and a pool
index in the pool variant. -/
inductive CallbackEv (ε : Type)
  | attempt (endpoint : ε) (seconds : Nat)
  | onOpen (endpoint : ε)
  | onMessage (endpoint : ε) (data : String)
  deriving DecidableEq

/-- The endpoints of the attempt events of a trace, in order. -/
def attemptEndpoints {ε : Type} : List (CallbackEv ε) → List ε
  | [] => []
  | .attempt e _ :: t => e :: attemptEndpoints t
  | .onOpen _ :: t => attemptEndpoints t
  | .onMessage _ _ :: t => attemptEndpoints t

/-- The armed watchdog durations of the attempt events of a trace. -/
def attemptSeconds {ε : Type} : List (CallbackEv ε) → List Nat
  | [] => []
  | .attempt _ d :: t => d :: attemptSeconds t
  | .onOpen _ :: t => attemptSeconds t
  | .onMessage _ _ :: t => attemptSeconds t

end Conn

namespace Conn1

open Conn

/-- The single fixed endpoint of the first connection variant. -/
def SERVER : String := "wss://api.deepmm.com"

/-- The closure state of connect: the ws variable, whether a watchdog
timer handle is pending, and the openTimeout counter (initially 1). -/
structure ConnState where
  ws : Option SocketPhase
  connectionTimeoutTimer : Bool
  openTimeout : Nat
  deriving DecidableEq

/-- makeConnection: best-effort close of the previous socket (errors
swallowed), create a fresh socket to SERVER and arm the watchdog for
openTimeout seconds. -/
def makeConnection (s : ConnState) : ConnState × List (CallbackEv String) :=
  let _ := tryClose s.ws
  ({ ws := some .connecting, connectionTimeoutTimer := true,
     openTimeout := s.openTimeout },
   [.attempt SERVER s.openTimeout])

/-- One event of the loop.  A watchdog that was cancelled never fires,
so a timeout event with no pending timer is a no-op; when it fires the
handler increments openTimeout and calls makeConnection.  The onopen
handler clears the pending timer and invokes the application onopen;
onmessage invokes the application onmessage. -/
def step (s : ConnState) : ConnEvent → ConnState × List (CallbackEv String)
  | .timeout =>
      if s.connectionTimeoutTimer then
        makeConnection { s with openTimeout := s.openTimeout + 1 }
      else (s, [])
  | .wsOpen =>
      match s.ws with
      | some .connecting =>
          ({ s with ws := some .opened, connectionTimeoutTimer := false },
           [.onOpen SERVER])
      | _ => (s, [])
  | .message data =>
      match s.ws with
      | some .opened => (s, [.onMessage SERVER data])
      | _ => (s, [])

/-- Deliver a list of events in order, concatenating the traces. -/
def run (s : ConnState) : List ConnEvent → ConnState × List (CallbackEv String)
  | [] => (s, [])
  | e :: es =>
      let p := step s e
      let q := run p.1 es
      (q.1, p.2 ++ q.2)

/-- connect: initialize the closure variables (ws null, no timer,
openTimeout 1), make the first connection attempt, then react to the
events the environment delivers. -/
def connect (evs : List ConnEvent) : ConnState × List (CallbackEv String) :=
  let p := makeConnection { ws := none, connectionTimeoutTimer := false, openTimeout := 1 }
  let q := run p.1 evs
  (q.1, p.2 ++ q.2)

end Conn1

namespace Conn2

open Conn

/-- The endpoint pool of the second connection variant. -/
def SERVER_LIST : List String := ["wss://deist.deepmm.com", "wss://hayek.deepmm.com"]

/-- Math.floor(r * SERVER_LIST.length) for the random draw r of
Math.random(), which lies in [0, 1). -/
def startIndex (sl : List String) (r : ℚ) : Nat :=
  (Int.floor (r * sl.length)).toNat

/-- The rotation of the timeout handler: wrap to 0 at the last index,
otherwise advance by one. -/
def rotate (sl : List String) (i : Nat) : Nat :=
  if i == sl.length - 1 then 0 else i + 1

/-- The closure state of the pool variant: serverIndex in addition to
the fields of the single-endpoint variant. -/
structure ConnState where
  serverIndex : Nat
  ws : Option SocketPhase
  connectionTimeoutTimer : Bool
  openTimeout : Nat
  deriving DecidableEq

/-- makeConnection: best-effort close of the previous socket (errors
swallowed), create a fresh socket to SERVER_LIST[serverIndex] and arm
the watchdog for openTimeout seconds. -/
def makeConnection (s : ConnState) : ConnState × List (CallbackEv Nat) :=
  let _ := tryClose s.ws
  ({ s with ws := some .connecting, connectionTimeoutTimer := true },
   [.attempt s.serverIndex s.openTimeout])

/-- One event of the pool loop: the timeout handler rotates serverIndex,
increments openTimeout and calls makeConnection; open and message behave
as in the single-endpoint variant. -/
def step (sl : List String) (s : ConnState) :
    ConnEvent → ConnState × List (CallbackEv Nat)
  | .timeout =>
      if s.connectionTimeoutTimer then
        makeConnection { s with serverIndex := rotate sl s.serverIndex,
                                openTimeout := s.openTimeout + 1 }
      else (s, [])
  | .wsOpen =>
      match s.ws with
      | some .connecting =>
          ({ s with ws := some .opened, connectionTimeoutTimer := false },
           [.onOpen s.serverIndex])
      | _ => (s, [])
  | .message data =>
      match s.ws with
      | some .opened => (s, [.onMessage s.serverIndex data])
      | _ => (s, [])

/-- Deliver a list of events in order, concatenating the traces. -/
def run (sl : List String) (s : ConnState) :
    List ConnEvent → ConnState × List (CallbackEv Nat)
  | [] => (s, [])
  | e :: es =>
      let p := step sl s e
      let q := run sl p.1 es
      (q.1, p.2 ++ q.2)

/-- connect: initialize serverIndex to the random draw, ws to null, no
timer, openTimeout 1, make the first attempt, then react to the events
the environment delivers. -/
def connect (sl : List String) (r : ℚ) (evs : List ConnEvent) :
    ConnState × List (CallbackEv Nat) :=
  let p := makeConnection { serverIndex := startIndex sl r, ws := none,
                            connectionTimeoutTimer := false, openTimeout := 1 }
  let q := run sl p.1 evs
  (q.1, p.2 ++ q.2)

end Conn2

namespace Auth

/-- A credential state is consistent when the stored authTime and exp
are exactly the claims of the stored idToken: no new token paired with
an old expiry or vice versa. -/
def Consistent (s : AuthState) : Prop :=
  match s.idToken with
  | none => True
  | some t => s.authTime = some t.auth_time ∧ s.exp = some t.exp

/-- The inputs of one getIdToken call: the identity-provider oracles,
the captured credentials, and the wall-clock time of the call. -/
structure CallCtx where
  login : String → String → Except AuthErr LoginResult
  refresh : Option String → Except AuthErr RefreshResult
  username : String
  password : String
  now : ℚ

/-- A sequence of getIdToken calls, each call acting on the closure
state left by the previous one (a failed call leaves it unchanged). -/
def runCalls : List CallCtx → AuthState → AuthState
  | [], s => s
  | c :: cs, s =>
      runCalls cs (getIdToken c.login c.refresh c.username c.password c.now s).2.1

/-- A concrete decoded token: issued at time 0, expiring at time 1000. -/
def tokA : IdToken := { auth_time := 0, exp := 1000, body := "tokA" }

/-- A concrete credential state holding tokA, issued at 0, expiring at
1000. -/
def stateA : AuthState :=
  { refreshToken := some "refresh-a", idToken := some tokA,
    authTime := some 0, exp := some 1000 }

/-- A concrete credential state holding tokA with issuance 0 and a
nominal expiry of 3800, which lies beyond the 3600 second ceiling. -/
def stateB : AuthState :=
  { refreshToken := some "refresh-a", idToken := some tokA,
    authTime := some 0, exp := some 3800 }

/-- A concrete login oracle that always succeeds. -/
def loginOracleA : String → String → Except AuthErr LoginResult :=
  fun _ _ =>
    .ok { RefreshToken := "refresh-b",
          IdToken := { auth_time := 900, exp := 4500, body := "tokB" } }

/-- A concrete renewal response carrying a token expiring at 4480. -/
def renewResultA : RefreshResult :=
  { IdToken := { auth_time := 880, exp := 4480, body := "tokC" } }

/-- A concrete renewal oracle that always succeeds with renewResultA. -/
def refreshOracleA : Option String → Except AuthErr RefreshResult :=
  fun _ => .ok renewResultA

/-- A concrete sequence of two getIdToken calls: one comfortably before
expiry, one inside the renewal window. -/
def callsA : List CallCtx :=
  [ { login := loginOracleA, refresh := refreshOracleA,
      username := "u", password := "p", now := 500 },
    { login := loginOracleA, refresh := refreshOracleA,
      username := "u", password := "p", now := 881 } ]

end Auth

/-- A concrete single-endpoint connection state: socket connecting,
watchdog pending, openTimeout already grown to 3. -/
def witnessState1 : Conn1.ConnState :=
  { ws := some .connecting, connectionTimeoutTimer := true, openTimeout := 3 }

/-- A concrete pool connection state: targeting pool index 1, socket
connecting, watchdog pending, openTimeout already grown to 3. -/
def witnessState2 : Conn2.ConnState :=
  { serverIndex := 1, ws := some .connecting, connectionTimeoutTimer := true,
    openTimeout := 3 }

/-- C1: for a token issued at time T with expiry T+E, a getToken call at
any time strictly before min(T+3600, T+E-120) returns the same cached
token and performs no network call, neither full login nor renewal. -/
theorem C1_token_caching
    (login : String → String → Except Auth.AuthErr Auth.LoginResult)
    (refresh : Option String → Except Auth.AuthErr Auth.RefreshResult)
    (u p : String) (T E now : ℚ) (s : Auth.AuthState) (tok : Auth.IdToken)
    (hid : s.idToken = some tok) (hauth : s.authTime = some T)
    (hexp : s.exp = some (T + E))
    (hceil : now < T + 3600) (hwin : now < T + E - 120) :
    Auth.getIdToken login refresh u p now s
      = (Auth.AuthAction.noCall, s, .ok (some tok)) := by
  have h1 : ¬ (s.idToken = none ∨ now - s.authTime.getD 0 > 3600) := by
    rw [hid, hauth]
    push_neg
    refine ⟨by simp, ?_⟩
    simp only [Option.getD_some]
    linarith
  have h2 : ¬ (s.exp.getD 0 - now < 120) := by
    rw [hexp]
    simp only [Option.getD_some]
    push_neg
    linarith
  unfold Auth.getIdToken
  rw [if_neg h1, if_neg h2, hid]

/-- C1 witness: at time 500 on a token issued at 0 and expiring at 1000,
getIdToken returns the cached token with no network call. -/
theorem C1_token_caching_witness :
    Auth.getIdToken Auth.loginOracleA Auth.refreshOracleA "u" "p" 500 Auth.stateA
      = (Auth.AuthAction.noCall, Auth.stateA, .ok (some Auth.tokA)) :=
  C1_token_caching Auth.loginOracleA Auth.refreshOracleA "u" "p" 0 1000 500
    Auth.stateA Auth.tokA rfl rfl (by norm_num [Auth.stateA]) (by norm_num)
    (by norm_num)

/-- C2 counterexample: at time exactly T+E-120 (token issued at T = 0
with expiry T+E = 1000, call at 880) the call is inside the window
claimed for renewal, yet the source condition exp - now < 120 is false
and the call returns the cached token with no network call. -/
theorem C2_counterexample :
    (0:ℚ) + 1000 - 120 ≤ 880 ∧ (880:ℚ) < 0 + 1000 ∧ (880:ℚ) < 0 + 3600 ∧
    Auth.getIdToken Auth.loginOracleA Auth.refreshOracleA "u" "p" 880 Auth.stateA
      = (Auth.AuthAction.noCall, Auth.stateA, .ok (some Auth.tokA)) ∧
    Auth.AuthAction.noCall ≠ Auth.AuthAction.renewal := by
  refine ⟨by norm_num, by norm_num, by norm_num, ?_, by simp⟩
  have h1 : ¬ (Auth.stateA.idToken = none ∨
      (880:ℚ) - Auth.stateA.authTime.getD 0 > 3600) := by
    simp only [Auth.stateA]
    push_neg
    refine ⟨by simp, ?_⟩
    norm_num
  have h2 : ¬ (Auth.stateA.exp.getD 0 - (880:ℚ) < 120) := by
    simp only [Auth.stateA, Option.getD_some]
    norm_num
  unfold Auth.getIdToken
  rw [if_neg h1, if_neg h2]
  rfl

/-- C2 amended: a getToken call strictly inside the window
(T+E-120, T+E), and before the 3600 second ceiling, performs silent
renewal with the stored renewal token rather than full login; the new
expiry claim is installed, and provided the renewal response token is
valid for at least 120 seconds past the call, the new expiry is strictly
greater than the old one. -/
theorem C2_silent_renewal
    (login : String → String → Except Auth.AuthErr Auth.LoginResult)
    (refresh : Option String → Except Auth.AuthErr Auth.RefreshResult)
    (u p : String) (T E now : ℚ) (s : Auth.AuthState) (tok : Auth.IdToken)
    (r : Auth.RefreshResult)
    (hid : s.idToken = some tok) (hauth : s.authTime = some T)
    (hexp : s.exp = some (T + E))
    (hwin1 : T + E - 120 < now) (hwin2 : now < T + E) (hceil : now < T + 3600)
    (hr : refresh s.refreshToken = .ok r)
    (hfresh : now + 120 ≤ r.IdToken.exp) :
    Auth.getIdToken login refresh u p now s
      = (Auth.AuthAction.renewal,
         { s with idToken := some r.IdToken,
                  authTime := some r.IdToken.auth_time,
                  exp := some r.IdToken.exp },
         .ok (some r.IdToken)) ∧
    ({ s with idToken := some r.IdToken,
              authTime := some r.IdToken.auth_time,
              exp := some r.IdToken.exp } : Auth.AuthState).refreshToken
        = s.refreshToken ∧
    T + E < r.IdToken.exp := by
  refine ⟨?_, rfl, by linarith⟩
  have h1 : ¬ (s.idToken = none ∨ now - s.authTime.getD 0 > 3600) := by
    rw [hid, hauth]
    push_neg
    refine ⟨by simp, ?_⟩
    simp only [Option.getD_some]
    linarith
  have h2 : s.exp.getD 0 - now < 120 := by
    rw [hexp]
    simp only [Option.getD_some]
    linarith
  unfold Auth.getIdToken
  rw [if_neg h1, if_pos h2]
  unfold Auth.refreshTokenAuth
  rw [hr]
  simp [Auth.extractIdTokenClaims]

/-- C2 witness: at time 881 (one second inside the amended window) on a
token issued at 0 and expiring at 1000, with a renewal oracle returning
a token expiring at 4480, the call performs renewal and installs the
strictly later expiry. -/
theorem C2_silent_renewal_witness :
    Auth.getIdToken Auth.loginOracleA Auth.refreshOracleA "u" "p" 881 Auth.stateA
      = (Auth.AuthAction.renewal,
         { Auth.stateA with
             idToken := some Auth.renewResultA.IdToken,
             authTime := some Auth.renewResultA.IdToken.auth_time,
             exp := some Auth.renewResultA.IdToken.exp },
         .ok (some Auth.renewResultA.IdToken)) ∧
    ({ Auth.stateA with
         idToken := some Auth.renewResultA.IdToken,
         authTime := some Auth.renewResultA.IdToken.auth_time,
         exp := some Auth.renewResultA.IdToken.exp } : Auth.AuthState).refreshToken
        = Auth.stateA.refreshToken ∧
    (0:ℚ) + 1000 < Auth.renewResultA.IdToken.exp :=
  C2_silent_renewal Auth.loginOracleA Auth.refreshOracleA "u" "p" 0 1000 881
    Auth.stateA Auth.tokA Auth.renewResultA rfl rfl (by norm_num [Auth.stateA])
    (by norm_num) (by norm_num) (by norm_num) rfl
    (by norm_num [Auth.renewResultA])

/-- C3 counterexample: at time exactly T+3600 (token issued at T = 0,
call at 3600, nominal expiry 3800 not yet within 120 seconds) the source
condition now - authTime > 3600 is false, so no full login happens: the
cached token is returned. -/
theorem C3_counterexample :
    (3600:ℚ) ≥ 0 + 3600 ∧
    Auth.getIdToken Auth.loginOracleA Auth.refreshOracleA "u" "p" 3600 Auth.stateB
      = (Auth.AuthAction.noCall, Auth.stateB, .ok (some Auth.tokA)) ∧
    Auth.AuthAction.noCall ≠ Auth.AuthAction.login := by
  refine ⟨by norm_num, ?_, by simp⟩
  have h1 : ¬ (Auth.stateB.idToken = none ∨
      (3600:ℚ) - Auth.stateB.authTime.getD 0 > 3600) := by
    simp only [Auth.stateB]
    push_neg
    refine ⟨by simp, ?_⟩
    norm_num
  have h2 : ¬ (Auth.stateB.exp.getD 0 - (3600:ℚ) < 120) := by
    simp only [Auth.stateB, Option.getD_some]
    norm_num
  unfold Auth.getIdToken
  rw [if_neg h1, if_neg h2]
  rfl

/-- C3 amended: a getToken call at any time strictly greater than
T+3600 performs a full username and password login, even when the
nominal expiry has not yet passed (no condition on exp is needed). -/
theorem C3_forced_relogin
    (login : String → String → Except Auth.AuthErr Auth.LoginResult)
    (refresh : Option String → Except Auth.AuthErr Auth.RefreshResult)
    (u p : String) (T now : ℚ) (s : Auth.AuthState)
    (hauth : s.authTime = some T) (hlate : T + 3600 < now) :
    (Auth.getIdToken login refresh u p now s).1 = Auth.AuthAction.login := by
  have h1 : s.idToken = none ∨ now - s.authTime.getD 0 > 3600 := by
    right
    rw [hauth]
    simp only [Option.getD_some]
    linarith
  unfold Auth.getIdToken
  rw [if_pos h1]
  unfold Auth.userPasswordAuth
  cases hl : login u p <;> simp

/-- C3 witness: a call at time 3700 on a token issued at 0 with nominal
expiry 3800 (not yet passed) performs a full login. -/
theorem C3_forced_relogin_witness :
    (Auth.getIdToken Auth.loginOracleA Auth.refreshOracleA "u" "p" 3700
        Auth.stateB).1 = Auth.AuthAction.login :=
  C3_forced_relogin Auth.loginOracleA Auth.refreshOracleA "u" "p" 0 3700
    Auth.stateB rfl (by norm_num)

/-- Helper: a userPasswordAuth call either fails leaving the state
unchanged, or succeeds and replaces every field from the login
response. -/
lemma userPasswordAuth_cases
    (login : String → String → Except Auth.AuthErr Auth.LoginResult)
    (u p : String) (s : Auth.AuthState) :
    (∃ e, Auth.userPasswordAuth login u p s = (s, .error e)) ∨
    (∃ r, login u p = .ok r ∧
      Auth.userPasswordAuth login u p s =
        ({ refreshToken := some r.RefreshToken, idToken := some r.IdToken,
           authTime := some r.IdToken.auth_time,
           exp := some r.IdToken.exp }, .ok ())) := by
  cases hl : login u p with
  | error e =>
      left
      exact ⟨e, by unfold Auth.userPasswordAuth; rw [hl]⟩
  | ok r =>
      right
      refine ⟨r, rfl, ?_⟩
      unfold Auth.userPasswordAuth
      rw [hl]
      rfl

/-- Helper: a refreshTokenAuth call either fails leaving the state
unchanged, or succeeds and replaces exactly idToken, authTime and exp
from the renewal response, keeping refreshToken. -/
lemma refreshTokenAuth_cases
    (refresh : Option String → Except Auth.AuthErr Auth.RefreshResult)
    (s : Auth.AuthState) :
    (∃ e, Auth.refreshTokenAuth refresh s = (s, .error e)) ∨
    (∃ r, refresh s.refreshToken = .ok r ∧
      Auth.refreshTokenAuth refresh s =
        ({ s with idToken := some r.IdToken,
                  authTime := some r.IdToken.auth_time,
                  exp := some r.IdToken.exp }, .ok ())) := by
  cases hr : refresh s.refreshToken with
  | error e =>
      left
      exact ⟨e, by unfold Auth.refreshTokenAuth; rw [hr]⟩
  | ok r =>
      right
      refine ⟨r, rfl, ?_⟩
      unfold Auth.refreshTokenAuth
      rw [hr]
      rfl

/-- C6: a getIdToken call is atomic over the credential state: a failed
call leaves the stored credential exactly as it was, and a successful
call returns the stored idToken of a state whose authTime and exp are
exactly the claims of that token — never a new token with an old
expiry. -/
theorem C6_atomic_credential
    (login : String → String → Except Auth.AuthErr Auth.LoginResult)
    (refresh : Option String → Except Auth.AuthErr Auth.RefreshResult)
    (u p : String) (now : ℚ) (s : Auth.AuthState) (hs : Auth.Consistent s) :
    (∀ a s' e, Auth.getIdToken login refresh u p now s = (a, s', .error e) →
        s' = s) ∧
    (∀ a s' v, Auth.getIdToken login refresh u p now s = (a, s', .ok v) →
        Auth.Consistent s' ∧ v = s'.idToken) := by
  unfold Auth.getIdToken
  split
  · rcases userPasswordAuth_cases login u p s with ⟨e, he⟩ | ⟨r, -, hok⟩
    · rw [he]
      constructor
      · intro a s' e' heq
        simp only [Prod.mk.injEq] at heq
        exact heq.2.1.symm
      · intro a s' v heq
        simp only [Prod.mk.injEq] at heq
        exact absurd heq.2.2 (by simp)
    · rw [hok]
      constructor
      · intro a s' e' heq
        simp only [Prod.mk.injEq] at heq
        exact absurd heq.2.2 (by simp)
      · intro a s' v heq
        simp only [Prod.mk.injEq, Except.ok.injEq] at heq
        obtain ⟨-, hs', hv⟩ := heq
        subst hs'
        exact ⟨⟨rfl, rfl⟩, hv.symm⟩
  · split
    · rcases refreshTokenAuth_cases refresh s with ⟨e, he⟩ | ⟨r, -, hok⟩
      · rw [he]
        constructor
        · intro a s' e' heq
          simp only [Prod.mk.injEq] at heq
          exact heq.2.1.symm
        · intro a s' v heq
          simp only [Prod.mk.injEq] at heq
          exact absurd heq.2.2 (by simp)
      · rw [hok]
        constructor
        · intro a s' e' heq
          simp only [Prod.mk.injEq] at heq
          exact absurd heq.2.2 (by simp)
        · intro a s' v heq
          simp only [Prod.mk.injEq, Except.ok.injEq] at heq
          obtain ⟨-, hs', hv⟩ := heq
          subst hs'
          exact ⟨⟨rfl, rfl⟩, hv.symm⟩
    · constructor
      · intro a s' e' heq
        simp only [Prod.mk.injEq] at heq
        exact absurd heq.2.2 (by simp)
      · intro a s' v heq
        simp only [Prod.mk.injEq, Except.ok.injEq] at heq
        obtain ⟨-, hs', hv⟩ := heq
        subst hs'
        exact ⟨hs, hv.symm⟩

/-- C6 witness: instantiated at a consistent concrete state and the
concrete oracles, with time 500. -/
theorem C6_atomic_credential_witness :
    (∀ a s' e, Auth.getIdToken Auth.loginOracleA Auth.refreshOracleA "u" "p" 500
        Auth.stateA = (a, s', .error e) → s' = Auth.stateA) ∧
    (∀ a s' v, Auth.getIdToken Auth.loginOracleA Auth.refreshOracleA "u" "p" 500
        Auth.stateA = (a, s', .ok v) → Auth.Consistent s' ∧ v = s'.idToken) :=
  C6_atomic_credential Auth.loginOracleA Auth.refreshOracleA "u" "p" 500
    Auth.stateA (by exact ⟨rfl, rfl⟩)

/-- Helper: no getIdToken call can unset the stored renewal token. -/
lemma getIdToken_keeps_refreshToken
    (login : String → String → Except Auth.AuthErr Auth.LoginResult)
    (refresh : Option String → Except Auth.AuthErr Auth.RefreshResult)
    (u p : String) (now : ℚ) (s : Auth.AuthState)
    (h : s.refreshToken.isSome = true) :
    ((Auth.getIdToken login refresh u p now s).2.1).refreshToken.isSome = true := by
  unfold Auth.getIdToken
  split
  · rcases userPasswordAuth_cases login u p s with ⟨e, he⟩ | ⟨r, -, hok⟩
    · rw [he]
      exact h
    · rw [hok]
      rfl
  · split
    · rcases refreshTokenAuth_cases refresh s with ⟨e, he⟩ | ⟨r, -, hok⟩
      · rw [he]
        exact h
      · rw [hok]
        exact h
    · exact h

/-- C9: a silent renewal never writes the renewal token (on success it
replaces exactly idToken, authTime and exp), and once the renewal token
is set no sequence of getIdToken calls — successful or failed logins,
renewals or cache hits — ever unsets it. -/
theorem C9_renewal_token_persistence :
    (∀ (refresh : Option String → Except Auth.AuthErr Auth.RefreshResult)
        (s : Auth.AuthState),
        ((Auth.refreshTokenAuth refresh s).1).refreshToken = s.refreshToken) ∧
    (∀ (refresh : Option String → Except Auth.AuthErr Auth.RefreshResult)
        (s : Auth.AuthState) (r : Auth.RefreshResult),
        refresh s.refreshToken = .ok r →
        Auth.refreshTokenAuth refresh s =
          ({ s with idToken := some r.IdToken,
                    authTime := some r.IdToken.auth_time,
                    exp := some r.IdToken.exp }, .ok ())) ∧
    (∀ login refresh (u p : String) (now : ℚ) (s : Auth.AuthState),
        s.refreshToken.isSome = true →
        ((Auth.getIdToken login refresh u p now s).2.1).refreshToken.isSome
          = true) ∧
    (∀ (cs : List Auth.CallCtx) (s : Auth.AuthState),
        s.refreshToken.isSome = true →
        (Auth.runCalls cs s).refreshToken.isSome = true) := by
  refine ⟨?_, ?_, ?_, ?_⟩
  · intro refresh s
    rcases refreshTokenAuth_cases refresh s with ⟨e, he⟩ | ⟨r, -, hok⟩
    · rw [he]
    · rw [hok]
  · intro refresh s r hr
    unfold Auth.refreshTokenAuth
    rw [hr]
    rfl
  · exact fun login refresh u p now s h =>
      getIdToken_keeps_refreshToken login refresh u p now s h
  · intro cs
    induction cs with
    | nil => intro s h; exact h
    | cons c cs ih =>
        intro s h
        exact ih _ (getIdToken_keeps_refreshToken c.login c.refresh c.username
          c.password c.now s h)

/-- C9 witness: instantiated at the concrete renewal oracle, concrete
state and a concrete two-call sequence. -/
theorem C9_renewal_token_persistence_witness :
    ((Auth.refreshTokenAuth Auth.refreshOracleA Auth.stateA).1).refreshToken
        = Auth.stateA.refreshToken ∧
    (Auth.runCalls Auth.callsA Auth.stateA).refreshToken.isSome = true :=
  ⟨C9_renewal_token_persistence.1 Auth.refreshOracleA Auth.stateA,
   C9_renewal_token_persistence.2.2.2 Auth.callsA Auth.stateA rfl⟩

/-- Helper: the rotation step keeps the index inside the pool. -/
lemma conn2_rotate_lt (sl : List String) (i : ℕ) (h : i < sl.length) :
    Conn2.rotate sl i < sl.length := by
  unfold Conn2.rotate
  split
  · omega
  · rename_i hne
    simp only [beq_iff_eq] at hne
    omega

/-- Helper: inside the pool the rotation step is addition of one modulo
the pool size. -/
lemma conn2_rotate_eq_mod (sl : List String) (i : ℕ) (h : i < sl.length) :
    Conn2.rotate sl i = (i + 1) % sl.length := by
  unfold Conn2.rotate
  split
  · rename_i he
    simp only [beq_iff_eq] at he
    have hlen : i + 1 = sl.length := by omega
    rw [hlen, Nat.mod_self]
  · rename_i hne
    simp only [beq_iff_eq] at hne
    rw [Nat.mod_eq_of_lt (by omega)]

/-- Helper: the random starting index is a valid pool index. -/
lemma conn2_startIndex_lt (sl : List String) (r : ℚ) (h0 : 0 ≤ r) (h1 : r < 1)
    (hsl : sl ≠ []) : Conn2.startIndex sl r < sl.length := by
  have hN : 0 < sl.length := List.length_pos.mpr hsl
  have hNq : (0:ℚ) < (sl.length : ℚ) := by exact_mod_cast hN
  have hflo : 0 ≤ Int.floor (r * (sl.length : ℚ)) :=
    Int.floor_nonneg.mpr (by positivity)
  have hfhi : Int.floor (r * (sl.length : ℚ)) < (sl.length : ℤ) := by
    apply Int.floor_lt.mpr
    push_cast
    calc r * (sl.length : ℚ) < 1 * (sl.length : ℚ) :=
          mul_lt_mul_of_pos_right h1 hNq
      _ = (sl.length : ℚ) := one_mul _
  unfold Conn2.startIndex
  omega

/-- Helper: the preimage of each pool index k under the floor draw is
exactly the interval of draws from k/N up to but excluding (k+1)/N, so
all N preimages have the same length 1/N. -/
lemma conn2_startIndex_eq_iff (sl : List String) (r : ℚ) (k : ℕ)
    (h0 : 0 ≤ r) (hsl : sl ≠ []) :
    Conn2.startIndex sl r = k ↔
      ((k : ℚ) / sl.length ≤ r ∧ r < ((k : ℚ) + 1) / sl.length) := by
  have hN : 0 < sl.length := List.length_pos.mpr hsl
  have hNq : (0:ℚ) < (sl.length : ℚ) := by exact_mod_cast hN
  have hflo : 0 ≤ Int.floor (r * (sl.length : ℚ)) :=
    Int.floor_nonneg.mpr (by positivity)
  unfold Conn2.startIndex
  rw [div_le_iff₀ hNq, lt_div_iff₀ hNq]
  constructor
  · intro hk
    have hfk : Int.floor (r * (sl.length : ℚ)) = (k : ℤ) := by omega
    obtain ⟨hle, hlt⟩ := Int.floor_eq_iff.mp hfk
    constructor
    · exact_mod_cast hle
    · exact_mod_cast hlt
  · rintro ⟨hle, hlt⟩
    have hfk : Int.floor (r * (sl.length : ℚ)) = (k : ℤ) := by
      apply Int.floor_eq_iff.mpr
      constructor
      · exact_mod_cast hle
      · push_cast
        exact hlt
    omega

/-- Helper: K watchdog firings from an armed state with a valid index
produce exactly K further attempts whose endpoints advance by one modulo
the pool size and whose durations grow by one each time. -/
lemma conn2_run_timeouts (sl : List String) :
    ∀ (K : ℕ) (s : Conn2.ConnState),
      s.connectionTimeoutTimer = true → s.serverIndex < sl.length →
      (Conn2.run sl s (List.replicate K .timeout)).2 =
        (List.range K).map (fun i =>
          Conn.CallbackEv.attempt ((s.serverIndex + (i + 1)) % sl.length)
            (s.openTimeout + (i + 1))) := by
  intro K
  induction K with
  | zero => intro s ht hidx; rfl
  | succ K ih =>
      intro s ht hidx
      rw [List.replicate_succ]
      have hstep : Conn2.step sl s .timeout =
          Conn2.makeConnection
            { s with serverIndex := Conn2.rotate sl s.serverIndex,
                     openTimeout := s.openTimeout + 1 } := by
        unfold Conn2.step
        rw [if_pos ht]
      simp only [Conn2.run]
      rw [hstep]
      simp only [Conn2.makeConnection]
      rw [ih _ rfl (conn2_rotate_lt sl _ hidx)]
      simp only [List.singleton_append]
      rw [List.range_succ_eq_map, List.map_cons, List.map_map]
      congr 1
      · rw [conn2_rotate_eq_mod sl _ hidx]
      · apply List.map_congr_left
        intro i hi
        simp only [Function.comp_apply]
        rw [conn2_rotate_eq_mod sl _ hidx, Nat.mod_add_mod,
          show s.serverIndex + 1 + (i + 1) = s.serverIndex + (i + 1 + 1) from by omega,
          show s.openTimeout + 1 + (i + 1) = s.openTimeout + (i + 1 + 1) from by omega]

/-- Helper: the full trace of the pool connect under K consecutive
watchdog firings is K+1 attempts whose endpoints are start+i modulo the
pool size and whose durations are 1+i seconds. -/
lemma conn2_connect_timeouts (sl : List String) (r : ℚ) (K : ℕ)
    (hsl : sl ≠ []) (h0 : 0 ≤ r) (h1 : r < 1) :
    (Conn2.connect sl r (List.replicate K .timeout)).2 =
      (List.range (K + 1)).map (fun i =>
        Conn.CallbackEv.attempt ((Conn2.startIndex sl r + i) % sl.length)
          (1 + i)) := by
  have hstart := conn2_startIndex_lt sl r h0 h1 hsl
  unfold Conn2.connect
  simp only [Conn2.makeConnection]
  rw [conn2_run_timeouts sl K _ rfl hstart]
  simp only [List.singleton_append]
  rw [List.range_succ_eq_map, List.map_cons, List.map_map]
  congr 1
  rw [show Conn2.startIndex sl r + 0 = Conn2.startIndex sl r from rfl,
    Nat.mod_eq_of_lt hstart]

/-- Helper: K watchdog firings of the single-endpoint loop from an armed
state produce K further attempts, all to SERVER, with durations growing
by one each time. -/
lemma conn1_run_timeouts :
    ∀ (K : ℕ) (s : Conn1.ConnState),
      s.connectionTimeoutTimer = true →
      (Conn1.run s (List.replicate K .timeout)).2 =
        (List.range K).map (fun i =>
          Conn.CallbackEv.attempt Conn1.SERVER (s.openTimeout + (i + 1))) := by
  intro K
  induction K with
  | zero => intro s ht; rfl
  | succ K ih =>
      intro s ht
      rw [List.replicate_succ]
      have hstep : Conn1.step s .timeout =
          Conn1.makeConnection { s with openTimeout := s.openTimeout + 1 } := by
        unfold Conn1.step
        rw [if_pos ht]
      simp only [Conn1.run]
      rw [hstep]
      simp only [Conn1.makeConnection]
      rw [ih _ rfl]
      simp only [List.singleton_append]
      rw [List.range_succ_eq_map, List.map_cons, List.map_map]
      congr 1
      apply List.map_congr_left
      intro i hi
      simp only [Function.comp_apply]
      rw [show s.openTimeout + 1 + (i + 1) = s.openTimeout + (i + 1 + 1) from by omega]

/-- Helper: the full trace of the single-endpoint connect under K
consecutive watchdog firings is K+1 attempts to SERVER with durations
1+i seconds. -/
lemma conn1_connect_timeouts (K : ℕ) :
    (Conn1.connect (List.replicate K .timeout)).2 =
      (List.range (K + 1)).map (fun i =>
        Conn.CallbackEv.attempt Conn1.SERVER (1 + i)) := by
  unfold Conn1.connect
  simp only [Conn1.makeConnection]
  rw [conn1_run_timeouts K _ rfl]
  simp only [List.singleton_append]
  rw [List.range_succ_eq_map, List.map_cons, List.map_map]
  congr 1

/-- Helper: extracting attempt endpoints from a trace of pure attempt
events recovers the endpoint function. -/
lemma attemptEndpoints_map_attempt {ε : Type} (f : ℕ → ε) (g : ℕ → ℕ) :
    ∀ l : List ℕ,
      Conn.attemptEndpoints
          (l.map fun i => Conn.CallbackEv.attempt (f i) (g i))
        = l.map f
  | [] => rfl
  | i :: l => by
      simp only [List.map_cons, Conn.attemptEndpoints]
      rw [attemptEndpoints_map_attempt f g l]

/-- Helper: extracting attempt durations from a trace of pure attempt
events recovers the duration function. -/
lemma attemptSeconds_map_attempt {ε : Type} (f : ℕ → ε) (g : ℕ → ℕ) :
    ∀ l : List ℕ,
      Conn.attemptSeconds
          (l.map fun i => Conn.CallbackEv.attempt (f i) (g i))
        = l.map g
  | [] => rfl
  | i :: l => by
      simp only [List.map_cons, Conn.attemptSeconds]
      rw [attemptSeconds_map_attempt f g l]

/-- Helper: the pool step at a timeout event, by unfolding. -/
lemma conn2_step_timeout (sl : List String) (s : Conn2.ConnState) :
    Conn2.step sl s .timeout
      = if s.connectionTimeoutTimer then
          Conn2.makeConnection
            { s with serverIndex := Conn2.rotate sl s.serverIndex,
                     openTimeout := s.openTimeout + 1 }
        else (s, []) := rfl

/-- Helper: the pool step at an open event, by unfolding. -/
lemma conn2_step_wsOpen (sl : List String) (s : Conn2.ConnState) :
    Conn2.step sl s .wsOpen
      = match s.ws with
        | some .connecting =>
            ({ s with ws := some .opened, connectionTimeoutTimer := false },
             [Conn.CallbackEv.onOpen s.serverIndex])
        | _ => (s, []) := rfl

/-- Helper: the pool step at a message event, by unfolding. -/
lemma conn2_step_message (sl : List String) (s : Conn2.ConnState) (d : String) :
    Conn2.step sl s (.message d)
      = match s.ws with
        | some .opened => (s, [Conn.CallbackEv.onMessage s.serverIndex d])
        | _ => (s, []) := rfl

/-- Helper: the single-endpoint step at an open event, by unfolding. -/
lemma conn1_step_wsOpen (s : Conn1.ConnState) :
    Conn1.step s .wsOpen
      = match s.ws with
        | some .connecting =>
            ({ s with ws := some .opened, connectionTimeoutTimer := false },
             [Conn.CallbackEv.onOpen Conn1.SERVER])
        | _ => (s, []) := rfl

/-- C4: the watchdog duration armed for the i-th connection attempt
(0-indexed) is 1+i seconds in both variants; the sequence is
monotonically non-decreasing and has no upper cap, and a successful open
leaves openTimeout (and serverIndex) untouched, so an intervening open
does not reset the duration used after the next failure. -/
theorem C4_backoff_growth (sl : List String) (r : ℚ) (K M : ℕ)
    (hsl : sl ≠ []) (h0 : 0 ≤ r) (h1 : r < 1) :
    Conn.attemptSeconds (Conn2.connect sl r (List.replicate K .timeout)).2
      = (List.range (K + 1)).map (fun i => 1 + i) ∧
    List.Sorted (· ≤ ·)
      (Conn.attemptSeconds (Conn2.connect sl r (List.replicate K .timeout)).2) ∧
    (∃ d, d ∈ Conn.attemptSeconds
        (Conn2.connect sl r (List.replicate (M + 1) .timeout)).2 ∧ M < d) ∧
    (∀ s : Conn2.ConnState,
      ((Conn2.step sl s .wsOpen).1).openTimeout = s.openTimeout ∧
      ((Conn2.step sl s .wsOpen).1).serverIndex = s.serverIndex) ∧
    Conn.attemptSeconds (Conn1.connect (List.replicate K .timeout)).2
      = (List.range (K + 1)).map (fun i => 1 + i) ∧
    (∀ s : Conn1.ConnState,
      ((Conn1.step s .wsOpen).1).openTimeout = s.openTimeout) := by
  have hdur : Conn.attemptSeconds
      (Conn2.connect sl r (List.replicate K .timeout)).2
      = (List.range (K + 1)).map (fun i => 1 + i) := by
    rw [conn2_connect_timeouts sl r K hsl h0 h1]
    exact attemptSeconds_map_attempt _ _ _
  have hdurM : Conn.attemptSeconds
      (Conn2.connect sl r (List.replicate (M + 1) .timeout)).2
      = (List.range (M + 1 + 1)).map (fun i => 1 + i) := by
    rw [conn2_connect_timeouts sl r (M + 1) hsl h0 h1]
    exact attemptSeconds_map_attempt _ _ _
  refine ⟨hdur, ?_, ?_, ?_, ?_, ?_⟩
  · rw [hdur]
    exact List.Pairwise.map _ (fun a b hab => by omega)
      (List.pairwise_lt_range _)
  · refine ⟨M + 2, ?_, by omega⟩
    rw [hdurM]
    exact List.mem_map.mpr ⟨M + 1, List.mem_range.mpr (by omega), by omega⟩
  · intro s
    rw [conn2_step_wsOpen sl s]
    constructor <;> (split <;> rfl)
  · rw [conn1_connect_timeouts K]
    exact attemptSeconds_map_attempt _ _ _
  · intro s
    rw [conn1_step_wsOpen s]
    split <;> rfl

/-- C4 witness: pool variant with draw 1/3, two watchdog firings (three
attempts), and the no-cap instance at M = 5. -/
theorem C4_backoff_growth_witness :
    Conn.attemptSeconds (Conn2.connect Conn2.SERVER_LIST (1/3)
        (List.replicate 2 .timeout)).2
      = (List.range (2 + 1)).map (fun i => 1 + i) ∧
    List.Sorted (· ≤ ·)
      (Conn.attemptSeconds (Conn2.connect Conn2.SERVER_LIST (1/3)
        (List.replicate 2 .timeout)).2) ∧
    (∃ d, d ∈ Conn.attemptSeconds
        (Conn2.connect Conn2.SERVER_LIST (1/3)
          (List.replicate (5 + 1) .timeout)).2 ∧ 5 < d) ∧
    (∀ s : Conn2.ConnState,
      ((Conn2.step Conn2.SERVER_LIST s .wsOpen).1).openTimeout = s.openTimeout ∧
      ((Conn2.step Conn2.SERVER_LIST s .wsOpen).1).serverIndex = s.serverIndex) ∧
    Conn.attemptSeconds (Conn1.connect (List.replicate 2 .timeout)).2
      = (List.range (2 + 1)).map (fun i => 1 + i) ∧
    (∀ s : Conn1.ConnState,
      ((Conn1.step s .wsOpen).1).openTimeout = s.openTimeout) :=
  C4_backoff_growth Conn2.SERVER_LIST (1/3) 2 5 (by simp [Conn2.SERVER_LIST])
    (by norm_num) (by norm_num)

/-- C5: with a pool of N endpoints and K consecutive failed attempts the
attempted endpoints are (start + i) mod N for i = 0..K; the random start
is uniform in the sense that its preimages are the N equal-length
intervals [k/N, (k+1)/N) of the unit interval; in single-endpoint mode
every attempt targets the one fixed SERVER. -/
theorem C5_endpoint_rotation (sl : List String) (r : ℚ) (K : ℕ)
    (hsl : sl ≠ []) (h0 : 0 ≤ r) (h1 : r < 1) :
    Conn.attemptEndpoints (Conn2.connect sl r (List.replicate K .timeout)).2
      = (List.range (K + 1)).map
          (fun i => (Conn2.startIndex sl r + i) % sl.length) ∧
    (∀ k, k < sl.length →
      (Conn2.startIndex sl r = k ↔
        ((k : ℚ) / sl.length ≤ r ∧ r < ((k : ℚ) + 1) / sl.length))) ∧
    Conn.attemptEndpoints (Conn1.connect (List.replicate K .timeout)).2
      = List.replicate (K + 1) Conn1.SERVER := by
  refine ⟨?_, fun k hk => conn2_startIndex_eq_iff sl r k h0 hsl, ?_⟩
  · rw [conn2_connect_timeouts sl r K hsl h0 h1]
    exact attemptEndpoints_map_attempt _ _ _
  · rw [conn1_connect_timeouts K,
      attemptEndpoints_map_attempt (fun _ => Conn1.SERVER) (fun i => 1 + i),
      List.map_const', List.length_range]

/-- C5 witness: the two-endpoint pool with draw 1/3 (start index 0) and
two watchdog firings. -/
theorem C5_endpoint_rotation_witness :
    Conn.attemptEndpoints (Conn2.connect Conn2.SERVER_LIST (1/3)
        (List.replicate 2 .timeout)).2
      = (List.range (2 + 1)).map
          (fun i => (Conn2.startIndex Conn2.SERVER_LIST (1/3) + i)
            % Conn2.SERVER_LIST.length) ∧
    (∀ k, k < Conn2.SERVER_LIST.length →
      (Conn2.startIndex Conn2.SERVER_LIST (1/3) = k ↔
        ((k : ℚ) / Conn2.SERVER_LIST.length ≤ 1/3 ∧
          (1/3 : ℚ) < ((k : ℚ) + 1) / Conn2.SERVER_LIST.length))) ∧
    Conn.attemptEndpoints (Conn1.connect (List.replicate 2 .timeout)).2
      = List.replicate (2 + 1) Conn1.SERVER :=
  C5_endpoint_rotation Conn2.SERVER_LIST (1/3) 2 (by simp [Conn2.SERVER_LIST])
    (by norm_num) (by norm_num)

/-- C7: when the socket signals open while connecting (before the
watchdog fires), the step cancels the pending watchdog, emits onOpen
exactly once, and leaves both openTimeout (the retry delay) and
serverIndex (the endpoint index) at their current values, in both
variants. -/
theorem C7_open_cancels_watchdog (sl : List String)
    (s2 : Conn2.ConnState) (s1 : Conn1.ConnState)
    (h2ws : s2.ws = some .connecting) (h2t : s2.connectionTimeoutTimer = true)
    (h1ws : s1.ws = some .connecting) (h1t : s1.connectionTimeoutTimer = true) :
    Conn2.step sl s2 .wsOpen
      = ({ s2 with ws := some .opened, connectionTimeoutTimer := false },
         [Conn.CallbackEv.onOpen s2.serverIndex]) ∧
    (Conn2.step sl s2 .wsOpen).1.serverIndex = s2.serverIndex ∧
    (Conn2.step sl s2 .wsOpen).1.openTimeout = s2.openTimeout ∧
    Conn1.step s1 .wsOpen
      = ({ s1 with ws := some .opened, connectionTimeoutTimer := false },
         [Conn.CallbackEv.onOpen Conn1.SERVER]) ∧
    (Conn1.step s1 .wsOpen).1.openTimeout = s1.openTimeout := by
  have h2 : Conn2.step sl s2 .wsOpen
      = ({ s2 with ws := some .opened, connectionTimeoutTimer := false },
         [Conn.CallbackEv.onOpen s2.serverIndex]) := by
    rw [conn2_step_wsOpen sl s2, h2ws]
  have h1 : Conn1.step s1 .wsOpen
      = ({ s1 with ws := some .opened, connectionTimeoutTimer := false },
         [Conn.CallbackEv.onOpen Conn1.SERVER]) := by
    rw [conn1_step_wsOpen s1, h1ws]
  exact ⟨h2, by rw [h2], by rw [h2], h1, by rw [h1]⟩

/-- C7 witness: instantiated at concrete connecting states with the
watchdog pending. -/
theorem C7_open_cancels_watchdog_witness :
    Conn2.step Conn2.SERVER_LIST witnessState2 .wsOpen
      = ({ witnessState2 with
            ws := some .opened, connectionTimeoutTimer := false },
         [Conn.CallbackEv.onOpen witnessState2.serverIndex]) ∧
    (Conn2.step Conn2.SERVER_LIST witnessState2 .wsOpen).1.serverIndex
      = witnessState2.serverIndex ∧
    (Conn2.step Conn2.SERVER_LIST witnessState2 .wsOpen).1.openTimeout
      = witnessState2.openTimeout ∧
    Conn1.step witnessState1 .wsOpen
      = ({ witnessState1 with
            ws := some .opened, connectionTimeoutTimer := false },
         [Conn.CallbackEv.onOpen Conn1.SERVER]) ∧
    (Conn1.step witnessState1 .wsOpen).1.openTimeout
      = witnessState1.openTimeout :=
  C7_open_cancels_watchdog Conn2.SERVER_LIST witnessState2 witnessState1
    rfl rfl rfl rfl

/-- C8: closing the previous transport raises a real error when no
previous transport exists, but makeConnection swallows it in both
variants: for every prior state — including ws null on the very first
attempt and a never-opened connecting socket — the new attempt is
created, the watchdog is armed, and exactly one attempt is emitted. -/
theorem C8_idempotent_teardown :
    (∃ e, Conn.closeSocket none = .error e) ∧
    (∀ s : Conn2.ConnState,
      Conn2.makeConnection s
        = ({ s with ws := some .connecting, connectionTimeoutTimer := true },
           [Conn.CallbackEv.attempt s.serverIndex s.openTimeout])) ∧
    (∀ s : Conn1.ConnState,
      Conn1.makeConnection s
        = ({ ws := some .connecting, connectionTimeoutTimer := true,
             openTimeout := s.openTimeout },
           [Conn.CallbackEv.attempt Conn1.SERVER s.openTimeout])) :=
  ⟨⟨"TypeError: ws is null", rfl⟩, fun _ => rfl, fun _ => rfl⟩

/-- Helper: every step of the pool loop keeps the endpoint index inside
the pool. -/
lemma conn2_step_serverIndex_lt (sl : List String) (s : Conn2.ConnState)
    (e : Conn.ConnEvent) (h : s.serverIndex < sl.length) :
    ((Conn2.step sl s e).1).serverIndex < sl.length := by
  cases e with
  | timeout =>
      rw [conn2_step_timeout sl s]
      split
      · exact conn2_rotate_lt sl _ h
      · exact h
  | wsOpen =>
      rw [conn2_step_wsOpen sl s]
      split <;> exact h
  | message d =>
      rw [conn2_step_message sl s d]
      split <;> exact h

/-- Helper: any event sequence keeps the endpoint index inside the
pool. -/
lemma conn2_run_serverIndex_lt (sl : List String) :
    ∀ (evs : List Conn.ConnEvent) (s : Conn2.ConnState),
      s.serverIndex < sl.length →
      ((Conn2.run sl s evs).1).serverIndex < sl.length := by
  intro evs
  induction evs with
  | nil => intro s h; exact h
  | cons e evs ih =>
      intro s h
      simp only [Conn2.run]
      exact ih _ (conn2_step_serverIndex_lt sl s e h)

/-- C10: in the pool variant the endpoint index is invariantly a valid
pool index: the random initial index is valid, each rotation step
preserves validity, and after any sequence of events the connection
still targets a real member of the fixed pool. -/
theorem C10_endpoint_index_invariant (sl : List String) (r : ℚ)
    (evs : List Conn.ConnEvent) (h0 : 0 ≤ r) (h1 : r < 1) (hsl : sl ≠ []) :
    Conn2.startIndex sl r < sl.length ∧
    (∀ i, i < sl.length → Conn2.rotate sl i < sl.length) ∧
    ((Conn2.connect sl r evs).1).serverIndex < sl.length := by
  have hstart := conn2_startIndex_lt sl r h0 h1 hsl
  refine ⟨hstart, fun i hi => conn2_rotate_lt sl i hi, ?_⟩
  unfold Conn2.connect
  simp only [Conn2.makeConnection]
  exact conn2_run_serverIndex_lt sl evs _ hstart

/-- C10 witness: the two-endpoint pool with draw 1/3 and a concrete
event sequence of one watchdog firing followed by an open. -/
theorem C10_endpoint_index_invariant_witness :
    Conn2.startIndex Conn2.SERVER_LIST (1/3) < Conn2.SERVER_LIST.length ∧
    (∀ i, i < Conn2.SERVER_LIST.length →
      Conn2.rotate Conn2.SERVER_LIST i < Conn2.SERVER_LIST.length) ∧
    ((Conn2.connect Conn2.SERVER_LIST (1/3)
        [.timeout, .wsOpen]).1).serverIndex < Conn2.SERVER_LIST.length :=
  C10_endpoint_index_invariant Conn2.SERVER_LIST (1/3) [.timeout, .wsOpen]
    (by norm_num) (by norm_num) (by simp [Conn2.SERVER_LIST])
